import Mathlib

/-!
Shallow embedding of the UnitsLibrary dimensional-analysis core
(`Dimension.hpp`, `Quantity.hpp`, `Absolute.hpp`, `LinearUnit.hpp`,
`CommonDimensions.hpp`), together with proofs of the specified
properties of the dimension algebra and the value-wrapper types.

A C++ dimension `dimension_t<BASE_TYPES<EXPONENTS>...>` is an ordered
list of (base-type identity, integer exponent) pairs; base-type
identities are modelled by natural numbers.  The compile-time template
operations become `Option`-valued functions: a template specialization
that does not exist (mismatched bases, invalid rational power, an
overload removed by a `requires` clause) is `none`.
-/

namespace rgf

/-- A dimension: an ordered list of (base identity, exponent) pairs,
mirroring `dimension_t<BASE_TYPES<EXPONENTS>...>`. -/
abbrev Dim := List (Nat × Int)

/-- The ordered basis of a dimension (the pack `BASE_TYPES...`). -/
def dimension_bases (d : Dim) : List Nat := d.map Prod.fst

/-- The exponent vector of a dimension (the pack `EXPONENTS...`). -/
def dimension_exponents (d : Dim) : List Int := d.map Prod.snd

/-- `detail::dimension_product`: the specialization exists only when the
two dimensions have the same base types in the same order, and then the
result adds the exponents positionally. -/
def dimension_product : Dim → Dim → Option Dim
  | [], [] => some []
  | (b1, e1) :: l, (b2, e2) :: r =>
    if b1 = b2 then (dimension_product l r).map (fun t => (b1, e1 + e2) :: t)
    else none
  | _, _ => none

/-- `detail::is_valid_power`: `(DEN != 0) && (((EXPONENTS * NUM) % DEN == 0) && ...)`.
C++ `%` on `int` is truncated modulus, i.e. `Int.tmod`. -/
def is_valid_power (series : List Int) (num den : Int) : Bool :=
  (den != 0) && series.all (fun e => (e * num).tmod den == 0)

/-- `detail::dimension_exponent`: raises a dimension to the rational power
`num / den`.  The specialization exists only when `is_valid_power` holds,
and then each exponent becomes `(EXPONENTS * POW_NUM) / POW_DEN` with C++
truncated division, i.e. `Int.tdiv`. -/
def dimension_exponent (d : Dim) (num den : Int) : Option Dim :=
  if is_valid_power (dimension_exponents d) num den then
    some (d.map (fun be => (be.1, (be.2 * num).tdiv den)))
  else none

/-- `rgf::dimension_inverse_t DIM = detail::dimension_exponent<DIM, -1>::type`
(with the defaulted `POW_DEN = 1`). -/
def dimension_inverse_t (d : Dim) : Option Dim := dimension_exponent d (-1) 1

/-- `rgf::dimension_product_t`. -/
def dimension_product_t (l r : Dim) : Option Dim := dimension_product l r

/-- `rgf::dimension_quotient_t LEFT RIGHT = dimension_product_t<LEFT, dimension_inverse_t<RIGHT>>`. -/
def dimension_quotient_t (l r : Dim) : Option Dim :=
  (dimension_inverse_t r).bind (fun ir => dimension_product_t l ir)

/-- `detail::scalar_dimension_type`: every exponent zero over the given basis. -/
def scalar_dimension_type (bs : List Nat) : Dim := bs.map (fun b => (b, 0))

/-- `detail::unit_dimension_type`: exponent `is_same_v<BASES<0>, BASE<0>>`
(1 at the chosen base, 0 elsewhere). -/
def unit_dimension_type (bs : List Nat) (base : Nat) : Dim :=
  bs.map (fun b => (b, if b = base then 1 else 0))

/-- `rgf::empty_dimension DIM = same_as<DIM, dimension_exponent_t<DIM, 0>>`. -/
def empty_dimension (d : Dim) : Prop := dimension_exponent d 0 1 = some d

instance (d : Dim) : Decidable (empty_dimension d) :=
  inferInstanceAs (Decidable (_ = _))

/-- The fixed basis of `CommonDimensions.hpp`:
`base_types_t<length, time, mass, angle, data, charge, temperature>`,
with base identities numbered in declaration order. -/
def standard_bases : List Nat := [0, 1, 2, 3, 4, 5, 6]

/-- `rgf::scalar_dimension`. -/
def scalar_dimension : Dim := scalar_dimension_type standard_bases

/-- `rgf::length_dimension`. -/
def length_dimension : Dim := unit_dimension_type standard_bases 0

/-- `rgf::time_dimension`. -/
def time_dimension : Dim := unit_dimension_type standard_bases 1

/-- `rgf::quantity<DIMENSION, VALUE_TYPE>`: the dimension (a type
parameter in C++) is carried as data, plus the single field
`mStandardValue`.  Magnitude type `α` stands for the arithmetic
`VALUE_TYPE` under exact arithmetic. -/
structure quantity (α : Type) where
  dim : Dim
  mStandardValue : α
deriving DecidableEq

/-- `rgf::absolute<DIMENSION, VALUE_TYPE>`. -/
structure absolute (α : Type) where
  dim : Dim
  mStandardValue : α
deriving DecidableEq

/-- `quantity::get_standard()`. -/
def quantity.get_standard {α : Type} (q : quantity α) : α := q.mStandardValue

/-- `absolute::get_standard()`. -/
def absolute.get_standard {α : Type} (a : absolute α) : α := a.mStandardValue

/-- A default-constructed `quantity<D, T>`: `mStandardValue = value_type()`,
which value-initializes to zero for arithmetic types. -/
def default_quantity (α : Type) [Zero α] (D : Dim) : quantity α := ⟨D, 0⟩

/-- A default-constructed `absolute<D, T>`: `mStandardValue = value_type()`,
which value-initializes to zero for arithmetic types. -/
def default_absolute (α : Type) [Zero α] (D : Dim) : absolute α := ⟨D, 0⟩

/-- `rgf::to_absolute`: `{ std::in_place, aQuantity.get_standard() }`
at the same dimension and value type. -/
def to_absolute {α : Type} (q : quantity α) : absolute α := ⟨q.dim, q.get_standard⟩

/-- `rgf::to_quantity`: `{ std::in_place, aAbsolute.get_standard() }`
at the same dimension and value type. -/
def to_quantity {α : Type} (a : absolute α) : quantity α := ⟨a.dim, a.get_standard⟩

/-- `operator+(const absolute&, const quantity_type&)` (Absolute.hpp,
addition overload 1, no `requires` clause): available whenever the two
operands have the same dimension, which the C++ types enforce. -/
def absolute.add_quantity {α : Type} [Add α] (l : absolute α) (r : quantity α) :
    Option (absolute α) :=
  if l.dim = r.dim then some ⟨l.dim, l.get_standard + r.get_standard⟩ else none

/-- `operator+(const quantity_type<dimension, T>&, const absolute&)`
(Absolute.hpp, addition overload 3): the source carries
`requires is_scalar`, so the overload only exists when the common
dimension is scalar. -/
def quantity_add_absolute {α : Type} [Add α] (l : quantity α) (r : absolute α) :
    Option (absolute α) :=
  if l.dim = r.dim ∧ empty_dimension r.dim then
    some ⟨r.dim, l.get_standard + r.get_standard⟩
  else none

/-- `operator-(const absolute&, const absolute&)` (Absolute.hpp,
subtraction overload 1): same dimension enforced by the C++ types;
returns `quantity_type`. -/
def absolute.sub_absolute {α : Type} [Sub α] (l r : absolute α) :
    Option (quantity α) :=
  if l.dim = r.dim then some ⟨l.dim, l.get_standard - r.get_standard⟩ else none

/-- `rgf::linear_unit<UNIT_DIMENSION, UNIT_VALUE_TYPE>`: the single field
`mConversionFactor`, with the dimension carried as data. -/
structure linear_unit (α : Type) where
  dim : Dim
  mConversionFactor : α
deriving DecidableEq

/-- `linear_unit::conversion_factor()`. -/
def linear_unit.conversion_factor {α : Type} (u : linear_unit α) : α :=
  u.mConversionFactor

/-- `linear_unit::to_standard_value(aValue)` = `aValue * mConversionFactor`. -/
def linear_unit.to_standard_value {α : Type} [Mul α] (u : linear_unit α) (v : α) : α :=
  v * u.mConversionFactor

/-- `linear_unit::from_standard_value(aValue)` = `aValue / mConversionFactor`. -/
def linear_unit.from_standard_value {α : Type} [Div α] (u : linear_unit α) (v : α) : α :=
  v / u.mConversionFactor

/-- `linear_unit::operator()(aValue)`: builds the quantity
`{ std::in_place, to_standard_value(aValue) }`. -/
def linear_unit.apply {α : Type} [Mul α] (u : linear_unit α) (v : α) : quantity α :=
  ⟨u.dim, u.to_standard_value v⟩

/-- `linear_unit::get(aQuantity)` = `from_standard_value(aQuantity.get_standard())`;
the argument type `quantity_type` forces equal dimensions. -/
def linear_unit.get {α : Type} [Div α] (u : linear_unit α) (q : quantity α) :
    Option α :=
  if u.dim = q.dim then some (u.from_standard_value q.get_standard) else none

/-- `quantity::get(aUnit)` = `aUnit.get(*this)`; the `unit_type` concept
requires the unit's dimension to equal the quantity's. -/
def quantity.get {α : Type} [Div α] (q : quantity α) (u : linear_unit α) :
    Option α :=
  u.get q

/-- `operator*(const linear_unit&, const linear_unit<RDIM, value_type>&)`:
result dimension `dimension_product_t<dimension, RDIM>`, factor
`aLeft.conversion_factor() * aRight.conversion_factor()`. -/
def linear_unit.mul {α : Type} [Mul α] (a b : linear_unit α) :
    Option (linear_unit α) :=
  (dimension_product_t a.dim b.dim).map
    (fun d => ⟨d, a.conversion_factor * b.conversion_factor⟩)

/-- `operator/(const linear_unit&, const linear_unit<RDIM, value_type>&)`:
result dimension `dimension_quotient_t<dimension, RDIM>`, factor
`aLeft.conversion_factor() / aRight.conversion_factor()`. -/
def linear_unit.div {α : Type} [Div α] (a b : linear_unit α) :
    Option (linear_unit α) :=
  (dimension_quotient_t a.dim b.dim).map
    (fun d => ⟨d, a.conversion_factor / b.conversion_factor⟩)

/-! ### Characterization of the dimension product -/

/-- The product specialization exists exactly on identical ordered bases,
where it adds exponents positionally. -/
theorem dimension_product_eq (A B : Dim) :
    dimension_product A B =
      if dimension_bases A = dimension_bases B then
        some (List.zipWith (fun p q => (p.1, p.2 + q.2)) A B)
      else none := by
  induction A generalizing B with
  | nil =>
    cases B with
    | nil => simp [dimension_product, dimension_bases]
    | cons b r => simp [dimension_product, dimension_bases]
  | cons a l ih =>
    obtain ⟨b1, e1⟩ := a
    cases B with
    | nil => simp [dimension_product, dimension_bases]
    | cons b r =>
      obtain ⟨b2, e2⟩ := b
      by_cases h : b1 = b2
      · subst h
        simp only [dimension_product, if_pos rfl, ih]
        by_cases hb : dimension_bases l = dimension_bases r <;>
          simp [dimension_bases, hb] at *
      · simp [dimension_product, dimension_bases, h]

/-- C1: over the identical ordered basis the dimension product sums the
exponents positionally; over differing bases it is not defined. -/
theorem claim_dimension_product_spec (A B : Dim) :
    dimension_product A B =
      if dimension_bases A = dimension_bases B then
        some (List.zipWith (fun p q => (p.1, p.2 + q.2)) A B)
      else none :=
  dimension_product_eq A B

/-- `is_valid_power` holds exactly when the denominator is nonzero and
divides every `exponent * num`. -/
theorem is_valid_power_iff (series : List Int) (num den : Int) :
    is_valid_power series num den = true ↔
      den ≠ 0 ∧ ∀ e ∈ series, den ∣ e * num := by
  simp [is_valid_power, Int.dvd_iff_tmod_eq_zero]

/-- C2: the rational power of a dimension exists exactly when the
denominator is nonzero and evenly divides every `exponent * num`; then
each exponent becomes the exact integer quotient `(exponent * num) / den`
(`Int./` is exact here), and otherwise there is no result at all. -/
theorem claim_dimension_exponent_spec (d : Dim) (num den : Int) :
    dimension_exponent d num den =
      if den ≠ 0 ∧ ∀ e ∈ dimension_exponents d, den ∣ e * num then
        some (d.map (fun be => (be.1, be.2 * num / den)))
      else none := by
  by_cases h : den ≠ 0 ∧ ∀ e ∈ dimension_exponents d, den ∣ e * num
  · rw [if_pos h]
    rw [dimension_exponent, if_pos ((is_valid_power_iff _ _ _).mpr h)]
    refine congrArg some (List.map_congr_left fun be hbe => ?_)
    have hd : den ∣ be.2 * num := h.2 be.2 (List.mem_map_of_mem Prod.snd hbe)
    rw [Int.tdiv_eq_ediv_of_dvd hd]
  · rw [if_neg h]
    rw [dimension_exponent, if_neg]
    intro hv
    exact h ((is_valid_power_iff _ _ _).mp hv)

/-- The inverse specialization always exists and negates every exponent. -/
theorem dimension_inverse_eq (d : Dim) :
    dimension_inverse_t d = some (d.map (fun be => (be.1, -be.2))) := by
  rw [dimension_inverse_t, dimension_exponent, if_pos]
  · refine congrArg some (List.map_congr_left fun be _ => ?_)
    rw [Int.tdiv_one, Int.mul_neg, Int.mul_one]
  · refine (is_valid_power_iff _ _ _).mpr ⟨one_ne_zero, fun e _ => one_dvd _⟩

/-- Multiplying a dimension with its exponent-negated copy yields the
all-zero dimension over the same basis. -/
theorem dimension_product_neg (A : Dim) :
    dimension_product A (A.map (fun be => (be.1, -be.2))) =
      some (scalar_dimension_type (dimension_bases A)) := by
  induction A with
  | nil => rfl
  | cons a l ih =>
    obtain ⟨b, e⟩ := a
    simp [dimension_product, ih, scalar_dimension_type, dimension_bases]

/-- C7: `product(A, inverse(A))` and `quotient(A, A)` both yield the
scalar dimension of `A`'s basis. -/
theorem claim_product_inverse_scalar (A : Dim) :
    (dimension_inverse_t A).bind (fun iA => dimension_product_t A iA) =
        some (scalar_dimension_type (dimension_bases A)) ∧
      dimension_quotient_t A A =
        some (scalar_dimension_type (dimension_bases A)) := by
  constructor <;>
    simp [dimension_quotient_t, dimension_inverse_eq, dimension_product_t,
      dimension_product_neg]

/-- The dimension product is commutative. -/
theorem dimension_product_comm (A B : Dim) :
    dimension_product A B = dimension_product B A := by
  induction A generalizing B with
  | nil => cases B <;> rfl
  | cons a l ih =>
    obtain ⟨b1, e1⟩ := a
    cases B with
    | nil => rfl
    | cons b r =>
      obtain ⟨b2, e2⟩ := b
      by_cases h : b1 = b2
      · subst h
        simp [dimension_product, ih, Int.add_comm]
      · simp [dimension_product, h, Ne.symm h]

/-- Dimensions over the same basis have the same length. -/
theorem length_eq_of_bases_eq {A B : Dim} (h : dimension_bases A = dimension_bases B) :
    A.length = B.length := by
  have := congrArg List.length h
  simpa [dimension_bases] using this

/-- The exponent-summing zip preserves the (left) basis. -/
theorem bases_zip_add (A B : Dim) (h : A.length = B.length) :
    dimension_bases (List.zipWith (fun p q => (p.1, p.2 + q.2)) A B) =
      dimension_bases A := by
  induction A generalizing B with
  | nil => simp [dimension_bases]
  | cons a l ih =>
    cases B with
    | nil => simp at h
    | cons b r =>
      simp only [List.length_cons, Nat.succ.injEq] at h
      simp [dimension_bases] at ih ⊢
      exact ih r h

/-- The exponent-summing zip is associative. -/
theorem zip_add_assoc (A B C : Dim) :
    List.zipWith (fun p q : Nat × Int => (p.1, p.2 + q.2))
        (List.zipWith (fun p q : Nat × Int => (p.1, p.2 + q.2)) A B) C =
      List.zipWith (fun p q : Nat × Int => (p.1, p.2 + q.2)) A
        (List.zipWith (fun p q : Nat × Int => (p.1, p.2 + q.2)) B C) := by
  induction A generalizing B C with
  | nil => simp
  | cons a l ih =>
    cases B with
    | nil => simp
    | cons b r =>
      cases C with
      | nil => simp
      | cons c s => simp [ih, Int.add_assoc]

/-- The dimension product is associative (as a partial operation). -/
theorem dimension_product_assoc (A B C : Dim) :
    (dimension_product A B).bind (fun ab => dimension_product ab C) =
      (dimension_product B C).bind (fun bc => dimension_product A bc) := by
  rw [dimension_product_eq A B, dimension_product_eq B C]
  by_cases hab : dimension_bases A = dimension_bases B
  · by_cases hbc : dimension_bases B = dimension_bases C
    · rw [if_pos hab, if_pos hbc, Option.some_bind, Option.some_bind,
        dimension_product_eq, dimension_product_eq,
        bases_zip_add A B (length_eq_of_bases_eq hab),
        bases_zip_add B C (length_eq_of_bases_eq hbc),
        if_pos (hab.trans hbc), if_pos hab, zip_add_assoc]
    · rw [if_pos hab, if_neg hbc, Option.some_bind, Option.none_bind,
        dimension_product_eq, bases_zip_add A B (length_eq_of_bases_eq hab),
        if_neg (fun hac => hbc (hab.symm.trans hac))]
  · by_cases hbc : dimension_bases B = dimension_bases C
    · rw [if_neg hab, if_pos hbc, Option.none_bind, Option.some_bind,
        dimension_product_eq, bases_zip_add B C (length_eq_of_bases_eq hbc),
        if_neg hab]
    · rw [if_neg hab, if_neg hbc, Option.none_bind, Option.none_bind]

/-- C8: the dimension product is commutative and associative. -/
theorem claim_product_comm_assoc (A B C : Dim) :
    dimension_product A B = dimension_product B A ∧
      (dimension_product A B).bind (fun ab => dimension_product ab C) =
        (dimension_product B C).bind (fun bc => dimension_product A bc) :=
  ⟨dimension_product_comm A B, dimension_product_assoc A B C⟩

/-- C3 (code bug): for the non-scalar length dimension, the source's
`quantity + absolute` overload does not exist (its `requires is_scalar`
clause removes it), while the mirrored `absolute + quantity` overload
does exist and sums the standard values. -/
theorem claim_quantity_add_absolute_rejected :
    quantity_add_absolute (⟨length_dimension, (1 : ℤ)⟩ : quantity ℤ)
        (⟨length_dimension, (2 : ℤ)⟩ : absolute ℤ) = none ∧
      absolute.add_quantity (⟨length_dimension, (2 : ℤ)⟩ : absolute ℤ)
        (⟨length_dimension, (1 : ℤ)⟩ : quantity ℤ) =
        some ⟨length_dimension, (3 : ℤ)⟩ := by
  constructor
  · rw [quantity_add_absolute, if_neg]
    intro h
    exact absurd h.2 (by decide)
  · rfl

/-- C4: for a linear unit with nonzero conversion factor, converting a
raw value to the standard representation and back returns it, and the
quantity built by the unit's call operator reads back the raw value. -/
theorem claim_linear_unit_roundtrip {α : Type} [Field α] (u : linear_unit α) (v : α)
    (h : u.conversion_factor ≠ 0) :
    u.from_standard_value (u.to_standard_value v) = v ∧
      (u.apply v).get u = some v := by
  have hv : u.from_standard_value (u.to_standard_value v) = v := by
    rw [linear_unit.from_standard_value, linear_unit.to_standard_value]
    exact mul_div_cancel_right₀ v h
  refine ⟨hv, ?_⟩
  rw [quantity.get, linear_unit.get,
    if_pos (show u.dim = (u.apply v).dim from rfl)]
  exact congrArg some hv

/-- Witness for C4 at the meters-scaled unit with factor 2 and raw value 3. -/
theorem claim_linear_unit_roundtrip_witness :
    linear_unit.from_standard_value (⟨length_dimension, (2 : ℚ)⟩ : linear_unit ℚ)
        (linear_unit.to_standard_value (⟨length_dimension, (2 : ℚ)⟩ : linear_unit ℚ) 3) = 3 ∧
      (linear_unit.apply (⟨length_dimension, (2 : ℚ)⟩ : linear_unit ℚ) 3).get
        ⟨length_dimension, (2 : ℚ)⟩ = some 3 :=
  claim_linear_unit_roundtrip (⟨length_dimension, (2 : ℚ)⟩ : linear_unit ℚ) 3 (by decide)

/-- C5: whenever the operand dimensions compose, multiplying two linear
units multiplies the factors and takes the product dimension, and
dividing them divides the factors and takes the quotient dimension. -/
theorem claim_linear_unit_compose {α : Type} [Field α] (a b : linear_unit α)
    (dp dq : Dim)
    (hp : dimension_product_t a.dim b.dim = some dp)
    (hq : dimension_quotient_t a.dim b.dim = some dq) :
    a.mul b = some ⟨dp, a.conversion_factor * b.conversion_factor⟩ ∧
      a.div b = some ⟨dq, a.conversion_factor / b.conversion_factor⟩ := by
  rw [linear_unit.mul, linear_unit.div, hp, hq]
  exact ⟨rfl, rfl⟩

/-- Witness for C5: a length unit of factor 2 composed with a time unit
of factor 4 over the standard basis. -/
theorem claim_linear_unit_compose_witness :
    linear_unit.mul (⟨length_dimension, (2 : ℚ)⟩ : linear_unit ℚ)
        ⟨time_dimension, (4 : ℚ)⟩ =
      some ⟨[(0, 1), (1, 1), (2, 0), (3, 0), (4, 0), (5, 0), (6, 0)],
        linear_unit.conversion_factor (⟨length_dimension, (2 : ℚ)⟩ : linear_unit ℚ) *
          linear_unit.conversion_factor (⟨time_dimension, (4 : ℚ)⟩ : linear_unit ℚ)⟩ ∧
      linear_unit.div (⟨length_dimension, (2 : ℚ)⟩ : linear_unit ℚ)
        ⟨time_dimension, (4 : ℚ)⟩ =
      some ⟨[(0, 1), (1, -1), (2, 0), (3, 0), (4, 0), (5, 0), (6, 0)],
        linear_unit.conversion_factor (⟨length_dimension, (2 : ℚ)⟩ : linear_unit ℚ) /
          linear_unit.conversion_factor (⟨time_dimension, (4 : ℚ)⟩ : linear_unit ℚ)⟩ :=
  claim_linear_unit_compose (⟨length_dimension, (2 : ℚ)⟩ : linear_unit ℚ)
    ⟨time_dimension, (4 : ℚ)⟩
    [(0, 1), (1, 1), (2, 0), (3, 0), (4, 0), (5, 0), (6, 0)]
    [(0, 1), (1, -1), (2, 0), (3, 0), (4, 0), (5, 0), (6, 0)]
    (by decide) (by decide)

/-- C6: subtracting two absolutes of one dimension yields the quantity
that added back to the subtrahend recovers the minuend. -/
theorem claim_absolute_difference {α : Type} [AddCommGroup α] (a1 a2 : absolute α)
    (h : a1.dim = a2.dim) :
    (a1.sub_absolute a2).bind (fun q => a2.add_quantity q) = some a1 := by
  obtain ⟨d1, v1⟩ := a1
  obtain ⟨d2, v2⟩ := a2
  obtain rfl : d1 = d2 := h
  have hv : v2 + (v1 - v2) = v1 := by abel
  simp [absolute.sub_absolute, absolute.add_quantity, absolute.get_standard,
    quantity.get_standard, hv]

/-- Witness for C6 at two length absolutes with standard values 5 and 3. -/
theorem claim_absolute_difference_witness :
    (absolute.sub_absolute (⟨length_dimension, (5 : ℤ)⟩ : absolute ℤ)
        ⟨length_dimension, (3 : ℤ)⟩).bind
      (fun q => absolute.add_quantity (⟨length_dimension, (3 : ℤ)⟩ : absolute ℤ) q) =
      some ⟨length_dimension, (5 : ℤ)⟩ :=
  claim_absolute_difference (⟨length_dimension, (5 : ℤ)⟩ : absolute ℤ)
    ⟨length_dimension, (3 : ℤ)⟩ rfl

/-- C9: `to_absolute` and `to_quantity` are mutually inverse and keep the
standard value and dimension. -/
theorem claim_to_absolute_to_quantity_roundtrip {α : Type}
    (q : quantity α) (a : absolute α) :
    to_quantity (to_absolute q) = q ∧ to_absolute (to_quantity a) = a :=
  ⟨rfl, rfl⟩

/-- C10: default-constructed quantities and absolutes value-initialize
the standard value, so `get_standard` returns zero for every dimension. -/
theorem claim_default_value_zero {α : Type} [Zero α] (D : Dim) :
    (default_quantity α D).get_standard = 0 ∧
      (default_absolute α D).get_standard = 0 :=
  ⟨rfl, rfl⟩

end rgf
